import Mathlib

/-!
Shallow embedding of `kernel/memremap.c` (msm8998 tree): the `memremap`
remap negotiator and the `devm_memremap_pages` section-granular ownership
registry built on a radix tree of section keys.

External collaborators (`region_intersects`, `PageHighMem`, `ioremap_cache`,
`ioremap_wt`, `arch_add_memory`, NUMA ids) are modelled as environment
parameters; the code of this file is translated from the C source
line by line.  Machine integers are modelled as `Nat` (resource addresses
and sizes; the arithmetic performed by the code on valid resources does not
overflow) and `Int` (C `int` error codes, which stay tiny).
-/

namespace MemremapModel

/-- Result of the external classifier `region_intersects(offset, size, "System RAM")`:
`REGION_DISJOINT`, `REGION_INTERSECTS` or `REGION_MIXED`. -/
inductive Region
  | disjoint
  | intersects
  | mixed
  deriving DecidableEq

/-- Virtual addresses handed out by the subsystem: either a direct-map (linear)
address `__va(offset)`, or an abstract address produced by an ioremap-style
mapping primitive (modelled by a token chosen by the environment). -/
inductive Addr
  | va (offset : Nat)
  | iomem (token : Nat)
  deriving DecidableEq

/-- Collaborator invocations made by `memremap`, in program order.
`try_ram_remap` consults the direct map; `ioremap_cache` and `ioremap_wt`
are the mapping primitives (`establish_mapping` in the spec's terms). -/
inductive MEvent
  | try_ram_remap
  | ioremap_cache
  | ioremap_wt
  deriving DecidableEq

/-- Environment of `memremap`: the classifier, the `PageHighMem` predicate on
page frame numbers, the two mapping primitives (which may fail, returning
`none` for C `NULL`), and `PAGE_SHIFT`. -/
structure RemapEnv where
  classify : Nat → Nat → Region
  page_highmem : Nat → Bool
  ioremap_cache : Nat → Nat → Option Addr
  ioremap_wt : Nat → Nat → Option Addr
  page_shift : Nat

/-- `MEMREMAP_WB = 1UL << 0`. -/
def MEMREMAP_WB : Nat := 1

/-- `MEMREMAP_WT = 1UL << 1`. -/
def MEMREMAP_WT : Nat := 2

/-- `flags &= ~(1UL << i)` on a `Nat` bitmask. -/
def clearBit (flags i : Nat) : Nat :=
  flags - (if flags.testBit i then 2 ^ i else 0)

/-- C `try_ram_remap(offset, size)`: return the linear address `__va(offset)`
when `pfn_to_page(offset >> PAGE_SHIFT)` is not highmem, else `NULL`
(fallback to `ioremap_cache`).  The `size` argument is unused in the source. -/
def try_ram_remap (env : RemapEnv) (offset _size : Nat) : Option Addr :=
  if env.page_highmem (offset >>> env.page_shift) then none
  else some (Addr.va offset)

/-- C `memremap(offset, size, flags)`, returning the resulting address
(`none` for `NULL`) together with the trace of collaborator invocations.
Mirrors the source: reject `REGION_MIXED`; if `MEMREMAP_WB` is requested,
clear it, try the direct map when the region is RAM, else (or if that fails)
call `ioremap_cache`; if still unmapped while the region is RAM and flags
remain, fail (aliasing check); if still unmapped and `MEMREMAP_WT` is
requested, call `ioremap_wt`. -/
def memremap (env : RemapEnv) (offset size flags : Nat) : Option Addr × List MEvent :=
  let is_ram := env.classify offset size
  if is_ram = Region.mixed then
    (none, [])
  else
    let step1 : Option Addr × List MEvent × Nat :=
      if flags.testBit 0 then
        let a := if is_ram = Region.intersects then try_ram_remap env offset size else none
        let ev := if is_ram = Region.intersects then [MEvent.try_ram_remap] else []
        match a with
        | some x => (some x, ev, clearBit flags 0)
        | none => (env.ioremap_cache offset size, ev ++ [MEvent.ioremap_cache], clearBit flags 0)
      else (none, [], flags)
    if step1.1 = none ∧ is_ram = Region.intersects ∧ step1.2.2 ≠ 0 then
      (none, step1.2.1)
    else if step1.1 = none ∧ step1.2.2.testBit 1 then
      (env.ioremap_wt offset size, step1.2.1 ++ [MEvent.ioremap_wt])
    else
      (step1.1, step1.2.1)

/-- C `struct page_map` as stored in the radix tree.  `dev` stands for
`pgmap.dev` (the owning device, whose name the collision diagnostic prints);
`pm_id` distinguishes separately allocated `page_map` structures (two claims,
even by the same device, allocate distinct `page_map`s). -/
structure page_map where
  dev : Nat
  pm_id : Nat
  deriving DecidableEq

/-- C `struct resource`: `start` and `end` (inclusive, as in the source;
the field is named `endp` because `end` is reserved in Lean). -/
structure Resource where
  start : Nat
  endp : Nat
  deriving DecidableEq

/-- C `resource_size(res) = res->end - res->start + 1`. -/
def resource_size (res : Resource) : Nat := res.endp - res.start + 1

/-- `x & ~(n - 1)` for a power-of-two `n`: round `x` down to a multiple of `n`. -/
def align_down (x n : Nat) : Nat := x / n * n

/-- The C `ALIGN(x, n) = (x + n - 1) & ~(n - 1)` for a power-of-two `n`:
round `x` up to a multiple of `n`. -/
def ALIGN (x n : Nat) : Nat := (x + n - 1) / n * n

/-- The `pgmap_radix` tree, modelled extensionally as a map from section id
(`key >> PA_SECTION_SHIFT`) to the `page_map` stored there. -/
abbrev Registry := Nat → Option page_map

/-- C `radix_tree_lookup(&pgmap_radix, key)`. -/
def radix_tree_lookup (reg : Registry) (key : Nat) : Option page_map := reg key

/-- C `radix_tree_insert(&pgmap_radix, key, page_map)`.  In the source this can
fail with `-EEXIST` only when the key is present, and the caller only invokes
it after a lookup returned `NULL`; allocation failure (`-ENOMEM`) is not
modelled. -/
def radix_tree_insert (reg : Registry) (key : Nat) (pm : page_map) : Registry :=
  fun s => if s = key then some pm else reg s

/-- C `radix_tree_delete(&pgmap_radix, key)`: unconditional removal; deleting
an absent key leaves the tree unchanged. -/
def radix_tree_delete (reg : Registry) (key : Nat) : Registry :=
  fun s => if s = key then none else reg s

/-- The successive values of `key >> PA_SECTION_SHIFT` produced by the loop
header `for (key = start; key <= end; key += SECTION_SIZE)`, where
`SECTION_SIZE = 1UL << shift`: `loopKeys start shift n` unrolls exactly `n`
iterations of the loop. -/
def loopKeys : Nat → Nat → Nat → List Nat
  | _, _, 0 => []
  | start, shift, n + 1 => (start >>> shift) :: loopKeys (start + 2 ^ shift) shift n

/-- All section keys visited by the loop
`for (key = res->start; key <= res->end; key += SECTION_SIZE)`: when
`start ≤ endp` the body runs `(endp - start) / SECTION_SIZE + 1` times
(the iterates `start + i * SECTION_SIZE` satisfy the guard exactly for
`i ≤ (endp - start) / SECTION_SIZE`), otherwise it never runs.
`walkKeys_unfold` below certifies this count against the loop recurrence. -/
def walkKeys (start endp shift : Nat) : List Nat :=
  if start ≤ endp then loopKeys start shift ((endp - start) / 2 ^ shift + 1) else []

/-- C `pgmap_radix_release(res)`: delete every visited section key of the
resource from the tree (the mutex only orders mutations and is not modelled). -/
def pgmap_radix_release (shift : Nat) (res : Resource) (reg : Registry) : Registry :=
  (walkKeys res.start res.endp shift).foldl radix_tree_delete reg

/-- C `find_dev_pagemap(phys)`: lookup of `phys >> PA_SECTION_SHIFT`
(the `rcu_read_lock` assertion is a concurrency obligation outside the model).
The source returns `&page_map->pgmap`; the model returns the `page_map`. -/
def find_dev_pagemap (shift : Nat) (reg : Registry) (phys : Nat) : Option page_map :=
  radix_tree_lookup reg (phys >>> shift)

/-- Outcome of the registration loop of `devm_memremap_pages`: either all keys
inserted (`ok` with the updated tree), or a collision (`busy` with the tree as
left by the interrupted walk and the already-present `page_map` found, C `-EBUSY`). -/
inductive LoopOut
  | ok (reg : Registry)
  | busy (reg : Registry) (dup : page_map)

/-- The registration loop body of `devm_memremap_pages`: for each visited
section key, `find_dev_pagemap` (here: a raw lookup of the already-shifted
key); on a duplicate stop with `-EBUSY`, else `radix_tree_insert` and
continue. -/
def pgmap_insert_loop (pm : page_map) : List Nat → Registry → LoopOut
  | [], reg => LoopOut.ok reg
  | key :: keys, reg =>
    match radix_tree_lookup reg key with
    | some dup => LoopOut.busy reg dup
    | none => pgmap_insert_loop pm keys (radix_tree_insert reg key pm)

/-- Environment of `devm_memremap_pages`: the classifier,
`arch_add_memory(nid, start, size, true)` returning `0` or a negative errno,
and `numa_mem_id()`. -/
structure ClaimEnv where
  classify : Nat → Nat → Region
  arch_add_memory : Int → Nat → Nat → Int
  numa_mem_id : Int

/-- Observable side effects of `devm_memremap_pages` beyond the radix tree:
the `dev_err` collision diagnostic naming `dev_name(dup->dev)`, the
`arch_add_memory` hotplug request, and `devres_add` (registration of the
automatic-release hook). -/
inductive ClaimEvent
  | collision (dup_dev : Nat)
  | arch_add (nid : Int) (start size : Nat)
  | devres_add
  deriving DecidableEq

/-- Return value of `devm_memremap_pages`: an address, or `ERR_PTR(code)`. -/
inductive ClaimResult
  | ok (addr : Addr)
  | err (code : Int)
  deriving DecidableEq

/-- Result, final radix tree, and event trace of one `devm_memremap_pages`
call. -/
structure ClaimOutcome where
  result : ClaimResult
  reg : Registry
  events : List ClaimEvent

/-- C `devm_memremap_pages(dev, res)`.  `dev_node` is `dev_to_node(dev)`, `pm`
the freshly allocated `page_map` (`devres_alloc_node` is assumed to succeed;
its failure returns `ERR_PTR(-ENOMEM)` before any registry access), `reg` the
radix tree at entry.  Mirrors the source: reject `REGION_MIXED` with
`ERR_PTR(-ENXIO)`; short-circuit `REGION_INTERSECTS` to `__va(res->start)`;
otherwise run the registration loop, on error release the resource's keys and
return `ERR_PTR`; then `arch_add_memory` on the section-aligned range, on
error release and return `ERR_PTR(error)`; finally `devres_add` and return
`__va(res->start)`. -/
def devm_memremap_pages (env : ClaimEnv) (shift : Nat) (dev_node : Int)
    (pm : page_map) (reg : Registry) (res : Resource) : ClaimOutcome :=
  match env.classify res.start (resource_size res) with
  | Region.mixed => ⟨ClaimResult.err (-6), reg, []⟩
  | Region.intersects => ⟨ClaimResult.ok (Addr.va res.start), reg, []⟩
  | Region.disjoint =>
    match pgmap_insert_loop pm (walkKeys res.start res.endp shift) reg with
    | LoopOut.busy reg1 dup =>
        ⟨ClaimResult.err (-16), pgmap_radix_release shift res reg1,
          [ClaimEvent.collision dup.dev]⟩
    | LoopOut.ok reg1 =>
        let nid := if dev_node < 0 then env.numa_mem_id else dev_node
        let align_start := align_down res.start (2 ^ shift)
        let align_size := ALIGN (resource_size res) (2 ^ shift)
        let error := env.arch_add_memory nid align_start align_size
        if error = 0 then
          ⟨ClaimResult.ok (Addr.va res.start), reg1,
            [ClaimEvent.arch_add nid align_start align_size, ClaimEvent.devres_add]⟩
        else
          ⟨ClaimResult.err error, pgmap_radix_release shift res reg1,
            [ClaimEvent.arch_add nid align_start align_size]⟩

/-- Primitive actions performed by the automatic-release hook, in program
order: the individual `radix_tree_delete`s of `pgmap_radix_release`, then
`arch_remove_memory` on the section-aligned range. -/
inductive ReleaseEvent
  | radix_delete (key : Nat)
  | arch_remove (start size : Nat)
  deriving DecidableEq

/-- C `devm_memremap_pages_release(dev, data)`: first `pgmap_radix_release(res)`,
then `arch_remove_memory(align_start, align_size)`.  Returns the radix tree
after the hook together with its action trace in execution order. -/
def devm_memremap_pages_release (shift : Nat) (reg : Registry) (res : Resource) :
    Registry × List ReleaseEvent :=
  (pgmap_radix_release shift res reg,
    (walkKeys res.start res.endp shift).map ReleaseEvent.radix_delete
      ++ [ReleaseEvent.arch_remove (align_down res.start (2 ^ shift))
            (ALIGN (resource_size res) (2 ^ shift))])

/-! Helper lemmas about the section walk and the radix-tree operations. -/

theorem two_pow_pos (n : Nat) : 0 < 2 ^ n := by positivity

theorem shiftRight_add_pow (start shift : Nat) :
    (start + 2 ^ shift) >>> shift = start >>> shift + 1 := by
  rw [Nat.shiftRight_eq_div_pow, Nat.shiftRight_eq_div_pow]
  exact Nat.add_div_right start (two_pow_pos shift)

/-- The iteration count used by `walkKeys` satisfies the recurrence of the C
loop `for (key = start; key <= end; key += SECTION_SIZE)`: one iteration at
`start` when the guard holds, then the same loop from `start + SECTION_SIZE`. -/
theorem walkKeys_unfold (start endp shift : Nat) :
    walkKeys start endp shift =
      if start ≤ endp then (start >>> shift) :: walkKeys (start + 2 ^ shift) endp shift
      else [] := by
  by_cases h : start ≤ endp
  · unfold walkKeys
    simp only [h, if_true, loopKeys]
    congr 1
    by_cases h2 : start + 2 ^ shift ≤ endp
    · simp only [h2, if_true]
      have hS : 0 < 2 ^ shift := two_pow_pos shift
      have hle : 2 ^ shift ≤ endp - start := by omega
      have e1 : endp - (start + 2 ^ shift) = endp - start - 2 ^ shift := by omega
      rw [e1, Nat.div_eq_sub_div hS hle]
      rfl
    · simp only [h2, if_false]
      have hd : endp - start < 2 ^ shift := by omega
      rw [Nat.div_eq_of_lt hd]
      rfl
  · simp [walkKeys, h]

theorem loopKeys_eq_range_map (shift : Nat) : ∀ (n start : Nat),
    loopKeys start shift n = (List.range n).map (fun i => start >>> shift + i) := by
  intro n
  induction n with
  | zero => intro start; simp [loopKeys]
  | succ n ih =>
    intro start
    have hfun : ∀ i, (start + 2 ^ shift) >>> shift + i = start >>> shift + (i + 1) := by
      intro i
      rw [shiftRight_add_pow]
      omega
    rw [loopKeys, ih (start + 2 ^ shift), List.range_succ_eq_map]
    simp [List.map_map, Function.comp, hfun]

theorem mem_walkKeys {s start endp shift : Nat} :
    s ∈ walkKeys start endp shift ↔
      start ≤ endp ∧ start >>> shift ≤ s ∧
        s ≤ start >>> shift + (endp - start) / 2 ^ shift := by
  by_cases h : start ≤ endp
  · unfold walkKeys
    simp only [h, if_true, true_and]
    rw [loopKeys_eq_range_map]
    simp only [List.mem_map, List.mem_range]
    constructor
    · rintro ⟨i, hi, rfl⟩
      omega
    · rintro ⟨h1, h2⟩
      exact ⟨s - start >>> shift, by omega, by omega⟩
  · simp [walkKeys, h]

theorem walkKeys_nodup (start endp shift : Nat) : (walkKeys start endp shift).Nodup := by
  by_cases h : start ≤ endp
  · unfold walkKeys
    simp only [h, if_true]
    rw [loopKeys_eq_range_map]
    exact List.Nodup.map (fun a b hab => by omega) (List.nodup_range _)
  · simp [walkKeys, h]

theorem foldl_delete_apply (keys : List Nat) : ∀ (reg : Registry) (s : Nat),
    keys.foldl radix_tree_delete reg s = if s ∈ keys then none else reg s := by
  induction keys with
  | nil => intro reg s; simp
  | cons k ks ih =>
    intro reg s
    rw [List.foldl_cons, ih]
    by_cases h1 : s ∈ ks
    · simp [h1]
    · by_cases h2 : s = k <;> simp [radix_tree_delete, h1, h2]

/-- Pointwise description of `pgmap_radix_release`: every visited section key
of the resource is absent afterwards, every other key is untouched. -/
theorem pgmap_radix_release_apply (shift : Nat) (res : Resource) (reg : Registry) (s : Nat) :
    pgmap_radix_release shift res reg s =
      if s ∈ walkKeys res.start res.endp shift then none else reg s :=
  foldl_delete_apply _ reg s

/-- When every visited key is absent, the registration loop succeeds and the
resulting tree maps exactly the visited keys to the new `page_map`. -/
theorem pgmap_insert_loop_ok (pm : page_map) (keys : List Nat) :
    ∀ reg : Registry, keys.Nodup → (∀ k ∈ keys, reg k = none) →
      pgmap_insert_loop pm keys reg =
        LoopOut.ok (fun s => if s ∈ keys then some pm else reg s) := by
  induction keys with
  | nil =>
    intro reg _ _
    have h : (fun s => if s ∈ ([] : List Nat) then some pm else reg s) = reg := by
      funext s
      simp
    rw [h]
    rfl
  | cons k ks ih =>
    intro reg hnd habs
    have hk : radix_tree_lookup reg k = none := habs k (List.mem_cons_self k ks)
    have hknotin : k ∉ ks := (List.nodup_cons.mp hnd).1
    have habs2 : ∀ k2 ∈ ks, radix_tree_insert reg k pm k2 = none := by
      intro k2 hk2
      have hne : k2 ≠ k := fun hEq => hknotin (hEq ▸ hk2)
      simp only [radix_tree_insert, if_neg hne]
      exact habs k2 (List.mem_cons_of_mem k hk2)
    simp only [pgmap_insert_loop, hk]
    rw [ih (radix_tree_insert reg k pm) (List.Nodup.of_cons hnd) habs2]
    congr 1
    funext s
    by_cases hs : s ∈ ks
    · simp [hs]
    · by_cases hsk : s = k <;> simp [radix_tree_insert, hs, hsk]

theorem div_add_of_dvd (S a b : Nat) (hS : 0 < S) (h : S ∣ a) :
    (a + b) / S = a / S + b / S := by
  obtain ⟨q, rfl⟩ := h
  rw [Nat.mul_add_div hS, Nat.mul_div_cancel_left q hS]

/-- For a section-aligned `start`, the last key visited by the walk is exactly
the section of `endp`, so the walk covers precisely the sections
`start >> shift .. endp >> shift`. -/
theorem aligned_walk_covers (start endp shift : Nat)
    (hal : start % 2 ^ shift = 0) (hle : start ≤ endp) :
    start >>> shift + (endp - start) / 2 ^ shift = endp >>> shift := by
  have hS : 0 < 2 ^ shift := two_pow_pos shift
  have hdvd : 2 ^ shift ∣ start := Nat.dvd_of_mod_eq_zero hal
  rw [Nat.shiftRight_eq_div_pow, Nat.shiftRight_eq_div_pow,
    ← div_add_of_dvd _ _ _ hS hdvd, Nat.add_sub_cancel' hle]

/-! Ground evaluations of the flag-bit arithmetic, stated once so the claim
proofs can rewrite with them. -/

theorem testBit_one_zero : Nat.testBit 1 0 = true := by decide

theorem testBit_three_zero : Nat.testBit 3 0 = true := by decide

theorem testBit_zero_zero : Nat.testBit 0 0 = false := by decide

theorem testBit_zero_one : Nat.testBit 0 1 = false := by decide

theorem testBit_two_one : Nat.testBit 2 1 = true := by decide

theorem clearBit_one_zero : clearBit 1 0 = 0 := by decide

theorem clearBit_three_zero : clearBit 3 0 = 2 := by decide

theorem wb_or_wt_eq_three : MEMREMAP_WB ||| MEMREMAP_WT = 3 := by decide

/-! Concrete environments used by counterexamples and witnesses. -/

/-- A fully-known-memory environment whose direct map covers everything
(no highmem); both mapping primitives fail. -/
def envRamDirect : RemapEnv :=
  ⟨fun _ _ => Region.intersects, fun _ => false, fun _ _ => none, fun _ _ => none, 12⟩

/-- A fully-known-memory environment whose pages are all highmem (direct map
unavailable); `ioremap_cache` produces a fresh mapping. -/
def envRamHigh : RemapEnv :=
  ⟨fun _ _ => Region.intersects, fun _ => true, fun _ _ => some (Addr.iomem 7),
    fun _ _ => none, 12⟩

/-- A fully-known-memory environment whose pages are all highmem and whose
`ioremap_cache` fails. -/
def envRamHighNoCache : RemapEnv :=
  ⟨fun _ _ => Region.intersects, fun _ => true, fun _ _ => none,
    fun _ _ => some (Addr.iomem 9), 12⟩

/-- A mixed-range environment. -/
def envMixed : RemapEnv :=
  ⟨fun _ _ => Region.mixed, fun _ => false, fun _ _ => some (Addr.iomem 3),
    fun _ _ => some (Addr.iomem 4), 12⟩

/-- C4 (amended): on a range classified `REGION_INTERSECTS` whose first page is
not highmem, `memremap` with only `MEMREMAP_WB` returns the direct-map address
`__va(offset)` and the only collaborator consulted is `try_ram_remap`; neither
mapping primitive (`ioremap_cache`, `ioremap_wt`) is invoked. -/
theorem memremap_wb_ram_returns_direct_map (env : RemapEnv) (offset size : Nat)
    (hc : env.classify offset size = Region.intersects)
    (hh : env.page_highmem (offset >>> env.page_shift) = false) :
    memremap env offset size MEMREMAP_WB = (some (Addr.va offset), [MEvent.try_ram_remap]) := by
  simp [memremap, try_ram_remap, MEMREMAP_WB, testBit_one_zero, hc, hh]

/-- C4 witness: the amended theorem applied to `envRamDirect` at offset `0`,
size `4096`. -/
theorem memremap_wb_ram_returns_direct_map_witness :
    envRamDirect.classify 0 4096 = Region.intersects ∧
      envRamDirect.page_highmem (0 >>> envRamDirect.page_shift) = false ∧
      memremap envRamDirect 0 4096 MEMREMAP_WB =
        (some (Addr.va 0), [MEvent.try_ram_remap]) :=
  ⟨rfl, rfl, memremap_wb_ram_returns_direct_map envRamDirect 0 4096 rfl rfl⟩

/-- C4 counterexample: on a fully-known-memory range whose pages are highmem,
`memremap` with only `MEMREMAP_WB` does invoke the `ioremap_cache` mapping
primitive and returns its fresh mapping, not the direct-map address. -/
theorem memremap_wb_ram_highmem_counterexample :
    memremap envRamHigh 0 4096 MEMREMAP_WB =
        (some (Addr.iomem 7), [MEvent.try_ram_remap, MEvent.ioremap_cache]) ∧
      MEvent.ioremap_cache ∈ (memremap envRamHigh 0 4096 MEMREMAP_WB).2 ∧
      (memremap envRamHigh 0 4096 MEMREMAP_WB).1 ≠ some (Addr.va 0) := by
  decide

/-- C2 (amended): on a range classified `REGION_INTERSECTS`, `memremap` with
`MEMREMAP_WB | MEMREMAP_WT`, when the write-back attempt produces no mapping
(the page is highmem and `ioremap_cache` fails), returns `NULL` from the
aliasing check before the write-through primitive is invoked: `ioremap_wt`
never appears in the trace. -/
theorem memremap_wb_wt_ram_fails_before_wt (env : RemapEnv) (offset size : Nat)
    (hc : env.classify offset size = Region.intersects)
    (hh : env.page_highmem (offset >>> env.page_shift) = true)
    (hcache : env.ioremap_cache offset size = none) :
    memremap env offset size (MEMREMAP_WB ||| MEMREMAP_WT) =
        (none, [MEvent.try_ram_remap, MEvent.ioremap_cache]) ∧
      MEvent.ioremap_wt ∉ (memremap env offset size (MEMREMAP_WB ||| MEMREMAP_WT)).2 := by
  have h1 : memremap env offset size (MEMREMAP_WB ||| MEMREMAP_WT) =
      (none, [MEvent.try_ram_remap, MEvent.ioremap_cache]) := by
    simp [memremap, try_ram_remap, wb_or_wt_eq_three, testBit_three_zero,
      clearBit_three_zero, hc, hh, hcache]
  refine ⟨h1, ?_⟩
  rw [h1]
  decide

/-- C2 witness: the amended theorem applied to `envRamHighNoCache` at offset
`0`, size `4096`. -/
theorem memremap_wb_wt_ram_fails_before_wt_witness :
    envRamHighNoCache.classify 0 4096 = Region.intersects ∧
      envRamHighNoCache.page_highmem (0 >>> envRamHighNoCache.page_shift) = true ∧
      envRamHighNoCache.ioremap_cache 0 4096 = none ∧
      memremap envRamHighNoCache 0 4096 (MEMREMAP_WB ||| MEMREMAP_WT) =
        (none, [MEvent.try_ram_remap, MEvent.ioremap_cache]) :=
  ⟨rfl, rfl, rfl,
    (memremap_wb_wt_ram_fails_before_wt envRamHighNoCache 0 4096 rfl rfl rfl).1⟩

/-- C2 counterexample: on a fully-known-memory range whose direct map is
available, `memremap` with `MEMREMAP_WB | MEMREMAP_WT` does not fail at all:
the write-back step succeeds first and the direct-map address is returned. -/
theorem memremap_wb_wt_ram_counterexample :
    memremap envRamDirect 0 4096 (MEMREMAP_WB ||| MEMREMAP_WT) =
        (some (Addr.va 0), [MEvent.try_ram_remap]) ∧
      (memremap envRamDirect 0 4096 (MEMREMAP_WB ||| MEMREMAP_WT)).1 ≠ none := by
  decide

/-- C10: with an empty flag set, `memremap` on any non-mixed range returns
`NULL` without consulting the direct map or invoking any mapping primitive
(the trace is empty), even when the range is fully known memory. -/
theorem memremap_no_flags_returns_null (env : RemapEnv) (offset size : Nat)
    (hnm : env.classify offset size ≠ Region.mixed) :
    memremap env offset size 0 = (none, []) := by
  cases h : env.classify offset size with
  | mixed => exact absurd h hnm
  | disjoint => simp [memremap, h, testBit_zero_zero, testBit_zero_one]
  | intersects => simp [memremap, h, testBit_zero_zero, testBit_zero_one]

/-- C10 witness: the theorem applied to `envRamDirect` (fully known memory
with a live direct map) at offset `0`, size `4096`. -/
theorem memremap_no_flags_returns_null_witness :
    envRamDirect.classify 0 4096 ≠ Region.mixed ∧
      memremap envRamDirect 0 4096 0 = (none, []) :=
  ⟨by decide, memremap_no_flags_returns_null envRamDirect 0 4096 (by decide)⟩

/-! Concrete fixtures for the claim path. -/

/-- A device-memory environment: every range is `REGION_DISJOINT` and
`arch_add_memory` succeeds. -/
def cenvOk : ClaimEnv := ⟨fun _ _ => Region.disjoint, fun _ _ _ => 0, 0⟩

/-- Every range is fully known memory (`REGION_INTERSECTS`). -/
def cenvRam : ClaimEnv := ⟨fun _ _ => Region.intersects, fun _ _ _ => 0, 0⟩

/-- Every range is `REGION_DISJOINT` but `arch_add_memory` fails with
`-ENOMEM`. -/
def cenvNomem : ClaimEnv := ⟨fun _ _ => Region.disjoint, fun _ _ _ => -12, 0⟩

/-- Every range is `REGION_MIXED`. -/
def cenvMixed : ClaimEnv := ⟨fun _ _ => Region.mixed, fun _ _ _ => 0, 0⟩

/-- Owner A's freshly allocated `page_map` (device 1). -/
def pmA : page_map := ⟨1, 1⟩

/-- Owner B's freshly allocated `page_map` (device 2). -/
def pmB : page_map := ⟨2, 2⟩

/-- The empty radix tree. -/
def regEmpty : Registry := fun _ => none

/-- A tree holding owner A's record at section 1 only. -/
def regOne : Registry := fun s => if s = 1 then some pmA else none

/-- Sections 0 and 1 with `PA_SECTION_SHIFT = 2` (`SECTION_SIZE = 4`). -/
def resA : Resource := ⟨0, 7⟩

/-- Sections 1 and 2 with shift 2: overlaps `resA` in section 1. -/
def resB : Resource := ⟨4, 11⟩

/-- An unaligned resource: bytes 3..4 with shift 2, covering sections 0 and 1. -/
def resU : Resource := ⟨3, 4⟩

/-- C5: every entry point rejects a `REGION_MIXED` range with no registry
mutation and no mapping attempt: `memremap` returns `NULL` with an empty
collaborator trace, and `devm_memremap_pages` returns `ERR_PTR(-ENXIO)`
leaving the radix tree untouched and performing no side effect. -/
theorem mixed_rejected_no_mutation (renv : RemapEnv) (offset size flags : Nat)
    (cenv : ClaimEnv) (shift : Nat) (dev_node : Int) (pm : page_map)
    (reg : Registry) (res : Resource)
    (hm : renv.classify offset size = Region.mixed)
    (hc : cenv.classify res.start (resource_size res) = Region.mixed) :
    memremap renv offset size flags = (none, []) ∧
      devm_memremap_pages cenv shift dev_node pm reg res =
        ⟨ClaimResult.err (-6), reg, []⟩ := by
  constructor
  · simp [memremap, hm]
  · simp [devm_memremap_pages, hc]

/-- C5 witness: both entry points applied under the mixed environments. -/
theorem mixed_rejected_no_mutation_witness :
    envMixed.classify 0 16 = Region.mixed ∧
      cenvMixed.classify resA.start (resource_size resA) = Region.mixed ∧
      memremap envMixed 0 16 3 = (none, []) ∧
      devm_memremap_pages cenvMixed 2 0 pmA regEmpty resA =
        ⟨ClaimResult.err (-6), regEmpty, []⟩ :=
  ⟨rfl, rfl,
    (mixed_rejected_no_mutation envMixed 0 16 3 cenvMixed 2 0 pmA regEmpty resA rfl rfl).1,
    (mixed_rejected_no_mutation envMixed 0 16 3 cenvMixed 2 0 pmA regEmpty resA rfl rfl).2⟩

/-- C6: a claim on a range classified `REGION_INTERSECTS` short-circuits:
it returns `__va(res->start)` as a success, leaves the radix tree untouched,
and performs no side effect (no `arch_add_memory` hotplug request and no
`devres_add` release-hook registration appear in the trace). -/
theorem ram_claim_shortcircuits (cenv : ClaimEnv) (shift : Nat) (dev_node : Int)
    (pm : page_map) (reg : Registry) (res : Resource)
    (hc : cenv.classify res.start (resource_size res) = Region.intersects) :
    devm_memremap_pages cenv shift dev_node pm reg res =
      ⟨ClaimResult.ok (Addr.va res.start), reg, []⟩ := by
  simp [devm_memremap_pages, hc]

/-- C6 witness: the theorem applied under `cenvRam`. -/
theorem ram_claim_shortcircuits_witness :
    cenvRam.classify resA.start (resource_size resA) = Region.intersects ∧
      devm_memremap_pages cenvRam 2 0 pmA regEmpty resA =
        ⟨ClaimResult.ok (Addr.va resA.start), regEmpty, []⟩ :=
  ⟨rfl, ram_claim_shortcircuits cenvRam 2 0 pmA regEmpty resA rfl⟩

/-- C7: when the registration loop succeeds (every visited key was absent)
but `arch_add_memory` on the section-aligned range fails, the claim returns
`ERR_PTR` of the underlying error and the rollback restores the radix tree
to exactly its state before the claim, key for key. -/
theorem hotplug_failure_rolls_back (cenv : ClaimEnv) (shift : Nat) (dev_node : Int)
    (pm : page_map) (reg : Registry) (res : Resource)
    (hc : cenv.classify res.start (resource_size res) = Region.disjoint)
    (habs : ∀ k ∈ walkKeys res.start res.endp shift, reg k = none)
    (herr : cenv.arch_add_memory (if dev_node < 0 then cenv.numa_mem_id else dev_node)
        (align_down res.start (2 ^ shift)) (ALIGN (resource_size res) (2 ^ shift)) ≠ 0) :
    (devm_memremap_pages cenv shift dev_node pm reg res).result =
        ClaimResult.err (cenv.arch_add_memory
          (if dev_node < 0 then cenv.numa_mem_id else dev_node)
          (align_down res.start (2 ^ shift)) (ALIGN (resource_size res) (2 ^ shift))) ∧
      ∀ s, (devm_memremap_pages cenv shift dev_node pm reg res).reg s = reg s := by
  have hins := pgmap_insert_loop_ok pm (walkKeys res.start res.endp shift) reg
      (walkKeys_nodup _ _ _) habs
  have hout : devm_memremap_pages cenv shift dev_node pm reg res =
      ⟨ClaimResult.err (cenv.arch_add_memory
          (if dev_node < 0 then cenv.numa_mem_id else dev_node)
          (align_down res.start (2 ^ shift)) (ALIGN (resource_size res) (2 ^ shift))),
        pgmap_radix_release shift res
          (fun s => if s ∈ walkKeys res.start res.endp shift then some pm else reg s),
        [ClaimEvent.arch_add (if dev_node < 0 then cenv.numa_mem_id else dev_node)
          (align_down res.start (2 ^ shift)) (ALIGN (resource_size res) (2 ^ shift))]⟩ := by
    simp [devm_memremap_pages, hc, hins, herr]
  constructor
  · rw [hout]
  · intro s
    rw [hout]
    show pgmap_radix_release shift res _ s = reg s
    rw [pgmap_radix_release_apply]
    by_cases hs : s ∈ walkKeys res.start res.endp shift
    · simp [hs, habs s hs]
    · simp [hs]

/-- C7 witness: the theorem applied under `cenvNomem` (where
`arch_add_memory` fails with `-ENOMEM`) on `resA` from the empty tree. -/
theorem hotplug_failure_rolls_back_witness :
    cenvNomem.classify resA.start (resource_size resA) = Region.disjoint ∧
      (∀ k ∈ walkKeys resA.start resA.endp 2, regEmpty k = none) ∧
      (cenvNomem.arch_add_memory ((0 : Int)) (align_down resA.start (2 ^ 2))
          (ALIGN (resource_size resA) (2 ^ 2)) ≠ 0) ∧
      (devm_memremap_pages cenvNomem 2 0 pmA regEmpty resA).result =
        ClaimResult.err (-12) ∧
      ∀ s, (devm_memremap_pages cenvNomem 2 0 pmA regEmpty resA).reg s = regEmpty s :=
  ⟨rfl, by decide, by decide,
    (hotplug_failure_rolls_back cenvNomem 2 0 pmA regEmpty resA rfl (by decide) (by decide)).1,
    (hotplug_failure_rolls_back cenvNomem 2 0 pmA regEmpty resA rfl (by decide) (by decide)).2⟩

/-- C3 (amended): for a successful claim on the registering path (range
classified `REGION_DISJOINT`) whose start is section-aligned, every section
covered by the range resolves via `find_dev_pagemap` to the claim's freshly
allocated `page_map`, and no section outside the range does.  The freshness
hypothesis (`reg` never already maps a section to `pm`) models the fact that
the C `page_map` is a fresh allocation no existing tree entry can point to. -/
theorem aligned_claim_registers_covered_sections (cenv : ClaimEnv) (shift : Nat)
    (dev_node : Int) (pm : page_map) (reg : Registry) (res : Resource)
    (hc : cenv.classify res.start (resource_size res) = Region.disjoint)
    (hal : res.start % 2 ^ shift = 0)
    (hle : res.start ≤ res.endp)
    (habs : ∀ k ∈ walkKeys res.start res.endp shift, reg k = none)
    (hfresh : ∀ s, reg s ≠ some pm)
    (hok : cenv.arch_add_memory (if dev_node < 0 then cenv.numa_mem_id else dev_node)
        (align_down res.start (2 ^ shift)) (ALIGN (resource_size res) (2 ^ shift)) = 0) :
    (devm_memremap_pages cenv shift dev_node pm reg res).result =
        ClaimResult.ok (Addr.va res.start) ∧
      ∀ phys, find_dev_pagemap shift (devm_memremap_pages cenv shift dev_node pm reg res).reg
            phys = some pm ↔
          (res.start >>> shift ≤ phys >>> shift ∧ phys >>> shift ≤ res.endp >>> shift) := by
  have hins := pgmap_insert_loop_ok pm (walkKeys res.start res.endp shift) reg
      (walkKeys_nodup _ _ _) habs
  have hcov := aligned_walk_covers res.start res.endp shift hal hle
  have hout : devm_memremap_pages cenv shift dev_node pm reg res =
      ⟨ClaimResult.ok (Addr.va res.start),
        (fun s => if s ∈ walkKeys res.start res.endp shift then some pm else reg s),
        [ClaimEvent.arch_add (if dev_node < 0 then cenv.numa_mem_id else dev_node)
            (align_down res.start (2 ^ shift)) (ALIGN (resource_size res) (2 ^ shift)),
          ClaimEvent.devres_add]⟩ := by
    simp [devm_memremap_pages, hc, hins, hok]
  constructor
  · rw [hout]
  · intro phys
    rw [hout]
    show (if phys >>> shift ∈ walkKeys res.start res.endp shift then some pm
        else reg (phys >>> shift)) = some pm ↔ _
    by_cases hmem : phys >>> shift ∈ walkKeys res.start res.endp shift
    · have hb := mem_walkKeys.mp hmem
      simp only [if_pos hmem, true_iff, eq_self_iff_true]
      exact ⟨hb.2.1, hcov ▸ hb.2.2⟩
    · simp only [if_neg hmem]
      constructor
      · intro hcontra
        exact absurd hcontra (hfresh _)
      · intro hbounds
        exfalso
        apply hmem
        rw [mem_walkKeys]
        exact ⟨hle, hbounds.1, by rw [hcov]; exact hbounds.2⟩

/-- C3 witness: the amended theorem applied to the aligned claim of `resB`
(sections 1 and 2, start `4` aligned to `SECTION_SIZE = 4`) from the empty
tree. -/
theorem aligned_claim_registers_covered_sections_witness :
    cenvOk.classify resB.start (resource_size resB) = Region.disjoint ∧
      resB.start % 2 ^ 2 = 0 ∧
      resB.start ≤ resB.endp ∧
      (∀ k ∈ walkKeys resB.start resB.endp 2, regEmpty k = none) ∧
      (∀ s, regEmpty s ≠ some pmA) ∧
      cenvOk.arch_add_memory ((0 : Int)) (align_down resB.start (2 ^ 2))
          (ALIGN (resource_size resB) (2 ^ 2)) = 0 ∧
      ∀ phys, find_dev_pagemap 2 (devm_memremap_pages cenvOk 2 0 pmA regEmpty resB).reg
            phys = some pmA ↔
          (resB.start >>> 2 ≤ phys >>> 2 ∧ phys >>> 2 ≤ resB.endp >>> 2) :=
  ⟨rfl, by decide, by decide, by decide, fun s h => Option.noConfusion h, by decide,
    (aligned_claim_registers_covered_sections cenvOk 2 0 pmA regEmpty resB rfl
      (by decide) (by decide) (by decide) (fun s h => Option.noConfusion h) (by decide)).2⟩

/-- C3 counterexample: two successful claims that violate the claim as stated.
First, a claim on a `REGION_INTERSECTS` range succeeds while registering
nothing, so the covered section 0 does not resolve to the owner.  Second, a
successful claim of the unaligned range bytes 3..4 (shift 2) covers sections 0
and 1 — address 4 lies inside the inclusive range and `4 >> 2 = 1` — but the
section walk only visits section 0, so `find_dev_pagemap` at address 4 finds
no owner. -/
theorem unaligned_or_ram_claim_counterexample :
    (devm_memremap_pages cenvRam 2 0 pmA regEmpty resA).result =
        ClaimResult.ok (Addr.va 0) ∧
      find_dev_pagemap 2 (devm_memremap_pages cenvRam 2 0 pmA regEmpty resA).reg 0 = none ∧
      (devm_memremap_pages cenvOk 2 0 pmA regEmpty resU).result =
        ClaimResult.ok (Addr.va 3) ∧
      (resU.start ≤ 4 ∧ 4 ≤ resU.endp ∧ (4 : Nat) >>> 2 = 1) ∧
      find_dev_pagemap 2 (devm_memremap_pages cenvOk 2 0 pmA regEmpty resU).reg 4 = none := by
  decide

/-- C1 (code bug): owner A claims `resA` (sections 0 and 1, shift 2) from the
empty tree and succeeds; owner B then claims the overlapping `resB`
(sections 1 and 2).  B's claim fails with `ERR_PTR(-EBUSY)` and the collision
diagnostic correctly names A's device — but the rollback
`pgmap_radix_release(res)` deletes every section key of B's range, including
the colliding section 1 that belongs to A.  A's entry for the shared section
is destroyed by the failed claim, so the registry is not restored to its
pre-claim state as the claim (and the spec) requires. -/
theorem collision_rollback_clobbers_prior_owner :
    (devm_memremap_pages cenvOk 2 0 pmA regEmpty resA).result =
        ClaimResult.ok (Addr.va 0) ∧
      (devm_memremap_pages cenvOk 2 0 pmA regEmpty resA).reg 1 = some pmA ∧
      (devm_memremap_pages cenvOk 2 0 pmB
          (devm_memremap_pages cenvOk 2 0 pmA regEmpty resA).reg resB).result =
        ClaimResult.err (-16) ∧
      (devm_memremap_pages cenvOk 2 0 pmB
          (devm_memremap_pages cenvOk 2 0 pmA regEmpty resA).reg resB).events =
        [ClaimEvent.collision 1] ∧
      (devm_memremap_pages cenvOk 2 0 pmB
          (devm_memremap_pages cenvOk 2 0 pmA regEmpty resA).reg resB).reg 1 = none ∧
      (devm_memremap_pages cenvOk 2 0 pmB
          (devm_memremap_pages cenvOk 2 0 pmA regEmpty resA).reg resB).reg 0 = some pmA := by
  decide

/-- C8: the automatic-release hook first deletes every visited section key of
the claimed range from the radix tree, and only then — strictly after every
deletion, as the last action of its trace — requests `arch_remove_memory` on
the section-aligned range. -/
theorem release_deletes_registry_before_arch_remove (shift : Nat) (reg : Registry)
    (res : Resource) :
    (∀ k ∈ walkKeys res.start res.endp shift,
        (devm_memremap_pages_release shift reg res).1 k = none) ∧
      (devm_memremap_pages_release shift reg res).2.getLast? =
        some (ReleaseEvent.arch_remove (align_down res.start (2 ^ shift))
          (ALIGN (resource_size res) (2 ^ shift))) ∧
      ∀ e ∈ (devm_memremap_pages_release shift reg res).2.dropLast,
        ∃ k, e = ReleaseEvent.radix_delete k ∧ k ∈ walkKeys res.start res.endp shift := by
  refine ⟨?_, ?_, ?_⟩
  · intro k hk
    show pgmap_radix_release shift res reg k = none
    rw [pgmap_radix_release_apply]
    simp [hk]
  · show ((walkKeys res.start res.endp shift).map ReleaseEvent.radix_delete
        ++ [ReleaseEvent.arch_remove (align_down res.start (2 ^ shift))
              (ALIGN (resource_size res) (2 ^ shift))]).getLast? = _
    rw [List.getLast?_concat]
  · intro e he
    rw [show (devm_memremap_pages_release shift reg res).2.dropLast
        = ((walkKeys res.start res.endp shift).map ReleaseEvent.radix_delete
            ++ [ReleaseEvent.arch_remove (align_down res.start (2 ^ shift))
                  (ALIGN (resource_size res) (2 ^ shift))]).dropLast from rfl,
      List.dropLast_concat] at he
    obtain ⟨k, hk, rfl⟩ := List.mem_map.mp he
    exact ⟨k, rfl, hk⟩

/-- C8 witness: the theorem applied at shift 2 to `resA` from the empty tree. -/
theorem release_deletes_registry_before_arch_remove_witness :
    (∀ k ∈ walkKeys resA.start resA.endp 2,
        (devm_memremap_pages_release 2 regEmpty resA).1 k = none) ∧
      (devm_memremap_pages_release 2 regEmpty resA).2.getLast? =
        some (ReleaseEvent.arch_remove (align_down resA.start (2 ^ 2))
          (ALIGN (resource_size resA) (2 ^ 2))) ∧
      ∀ e ∈ (devm_memremap_pages_release 2 regEmpty resA).2.dropLast,
        ∃ k, e = ReleaseEvent.radix_delete k ∧ k ∈ walkKeys resA.start resA.endp 2 :=
  release_deletes_registry_before_arch_remove 2 regEmpty resA

/-- C9: `pgmap_radix_release` on a range none of whose visited sections is
present is a no-op (the function is total — there is no error channel), and
releasing the same range twice leaves the tree exactly as releasing it once:
per section, `radix_tree_delete` of an absent key does nothing. -/
theorem remove_absent_noop_and_idempotent (shift : Nat) (res : Resource)
    (reg reg2 : Registry)
    (habs : ∀ k ∈ walkKeys res.start res.endp shift, reg k = none) :
    pgmap_radix_release shift res reg = reg ∧
      pgmap_radix_release shift res (pgmap_radix_release shift res reg2) =
        pgmap_radix_release shift res reg2 := by
  constructor
  · funext s
    rw [pgmap_radix_release_apply]
    by_cases hs : s ∈ walkKeys res.start res.endp shift
    · simp [hs, habs s hs]
    · simp [hs]
  · funext s
    rw [pgmap_radix_release_apply, pgmap_radix_release_apply]
    by_cases hs : s ∈ walkKeys res.start res.endp shift <;> simp [hs]

/-- C9 witness: the theorem applied at shift 2 to `resA`, with the empty tree
for the no-op part and a tree holding an entry at section 1 for the
idempotence part. -/
theorem remove_absent_noop_and_idempotent_witness :
    (∀ k ∈ walkKeys resA.start resA.endp 2, regEmpty k = none) ∧
      pgmap_radix_release 2 resA regEmpty = regEmpty ∧
      pgmap_radix_release 2 resA (pgmap_radix_release 2 resA regOne) =
        pgmap_radix_release 2 resA regOne :=
  ⟨by decide, (remove_absent_noop_and_idempotent 2 resA regEmpty regOne (by decide)).1,
    (remove_absent_noop_and_idempotent 2 resA regEmpty regOne (by decide)).2⟩

end MemremapModel
